import Mathlib

/-!
Shallow embedding of the `MySQLStorage` class of
`src/server/storage.ts` (MunicipalRatesClearance).

Modelling choices, each tied to the source:
* The relational datastore is a `Store` value carrying the two tables
  (`applications`, `admins`) as lists in insertion order.
* `DATETIME` values are modelled as `Nat` instants; `new Date()` becomes an
  explicit `now` argument.  A JS `Date` object is always truthy, so
  `application.reviewDate || now` is `Option.getD`.
* `randomUUID()` becomes an explicit `id` argument; `Math.random()` becomes an
  explicit rational argument `r` (the JS float lies in `[0,1)`; the arithmetic
  `r * 900000 + 100000` and `Math.floor` are exact on rationals).
* JS string truthiness: `undefined` and `""` are falsy, so `x || y` on an
  optional string is `jsOrOpt` / `jsOrStr` below.
* The `applications` table declares `id` as PRIMARY KEY and
  `reference_number` as `UNIQUE`; a MySQL `INSERT` violating either fails,
  so `createApplication` returns `Except Unit` and leaves the store
  unchanged on a constraint violation (spec section 7: "surfaces as a raw
  datastore error").
-/

inductive Status where
  | submitted
  | under_review
  | approved
  | rejected
deriving DecidableEq, Repr

structure Application where
  id : String
  referenceNumber : String
  fullName : String
  idNumber : String
  phoneNumber : String
  email : Option String
  propertyAddress : String
  standNumber : String
  propertyType : String
  reason : String
  documents : List String
  uploadedDocuments : List String
  status : Status
  submittedDate : Nat
  reviewDate : Option Nat
  completedDate : Option Nat
  adminNotes : Option String
  reviewedBy : Option String
deriving DecidableEq, Repr

structure InsertApplication where
  fullName : String
  idNumber : String
  phoneNumber : String
  email : Option String
  propertyAddress : String
  standNumber : String
  propertyType : String
  reason : String
  documents : Option (List String)
  uploadedDocuments : Option (List String)
deriving DecidableEq, Repr

structure Admin where
  id : String
  username : String
  password : String
  fullName : String
  createdAt : Nat
deriving DecidableEq, Repr

structure Store where
  applications : List Application
  admins : List Admin
deriving DecidableEq, Repr

def emptyStore : Store := { applications := [], admins := [] }

/-- JS `arg || fallback` where both sides are `string | undefined | null`:
`undefined`/`null` and the empty string are falsy. -/
def jsOrOpt (arg fallback : Option String) : Option String :=
  match arg with
  | some s => if s = "" then fallback else some s
  | none => fallback

/-- JS `arg || fallback` where the fallback is a plain string. -/
def jsOrStr (arg : Option String) (fallback : String) : String :=
  match arg with
  | some s => if s = "" then fallback else s
  | none => fallback

/-- The 6-digit suffix `Math.floor(Math.random() * 900000 + 100000)` of
`createApplication` (storage.ts line 118), with the random draw `r`
passed explicitly. -/
def refSuffix (r : ℚ) : ℤ := ⌊r * 900000 + 100000⌋

/-- The generated reference number
`` `RCC-2025-${Math.floor(Math.random() * 900000 + 100000)}` ``. -/
def referenceNumber (r : ℚ) : String :=
  "RCC-2025-" ++ Nat.repr (refSuffix r).toNat

/-- The record literal built by `createApplication` (storage.ts lines
121-134): spread of the insert payload, generated identifiers, fresh
lifecycle fields, `||`-defaulted email and document arrays. -/
def newApplication (input : InsertApplication) (id : String) (r : ℚ)
    (now : Nat) : Application :=
  { id := id
    referenceNumber := referenceNumber r
    fullName := input.fullName
    idNumber := input.idNumber
    phoneNumber := input.phoneNumber
    email := jsOrOpt input.email none
    propertyAddress := input.propertyAddress
    standNumber := input.standNumber
    propertyType := input.propertyType
    reason := input.reason
    status := .submitted
    submittedDate := now
    reviewDate := none
    completedDate := none
    adminNotes := none
    reviewedBy := none
    documents := input.documents.getD []
    uploadedDocuments := input.uploadedDocuments.getD [] }

/-- `createApplication` (storage.ts lines 114-166).  The INSERT hits the
PRIMARY KEY / UNIQUE constraints of the `applications` table, so a
duplicate `id` or `reference_number` raises a datastore error. -/
def createApplication (st : Store) (input : InsertApplication)
    (id : String) (r : ℚ) (now : Nat) : Except Unit (Application × Store) :=
  let app : Application := newApplication input id r now
  if st.applications.any (fun a => a.id = app.id) then .error ()
  else if st.applications.any (fun a => a.referenceNumber = app.referenceNumber) then .error ()
  else .ok (app, { st with applications := st.applications ++ [app] })

/-- `getApplication` (storage.ts lines 168-179): `SELECT * FROM applications
WHERE id = ?`, first row or the `undefined` sentinel. -/
def getApplication (st : Store) (id : String) : Option Application :=
  st.applications.find? (fun a => a.id = id)

/-- The row rewrite performed by an `UPDATE applications ... WHERE id = ?`. -/
def setApplication (l : List Application) (id : String) (u : Application) :
    List Application :=
  l.map (fun a => if a.id = id then u else a)

/-- The record computed by `updateApplicationStatus` for an existing row
(storage.ts lines 216-244): `reviewDate = application.reviewDate || now`
(a JS Date is always truthy, null is falsy); `completedDate = now` exactly
when the new status is approved/rejected, otherwise the prior value;
`reviewedBy || application.reviewedBy` etc. use JS string truthiness.
The UPDATE statement and the returned object carry the same values. -/
def updatedRecord (app : Application) (status : Status)
    (reviewedBy adminNotes reason : Option String) (now : Nat) : Application :=
  { app with
    status := status
    reviewedBy := jsOrOpt reviewedBy app.reviewedBy
    adminNotes := jsOrOpt adminNotes app.adminNotes
    reason := jsOrStr reason app.reason
    reviewDate := some (app.reviewDate.getD now)
    completedDate :=
      if status = .approved ∨ status = .rejected then some now
      else app.completedDate }

/-- `updateApplicationStatus` (storage.ts lines 204-245): read-then-write,
`undefined` sentinel (and no write) for a missing id. -/
def updateApplicationStatus (st : Store) (id : String) (status : Status)
    (reviewedBy adminNotes reason : Option String) (now : Nat) :
    Option Application × Store :=
  match getApplication st id with
  | none => (none, st)
  | some app =>
    let updated := updatedRecord app status reviewedBy adminNotes reason now
    (some updated, { st with applications := setApplication st.applications id updated })

/-- The record computed by `attachDocuments` for an existing row
(storage.ts lines 253-275): `updatedDocuments = [...currentDocuments,
...documents]`, written to BOTH `documents` and `uploaded_documents`;
status forced to `under_review`; `review_date = now` unconditionally. -/
def attachedRecord (app : Application) (documents : List String)
    (now : Nat) : Application :=
  { app with
    documents := app.documents ++ documents
    uploadedDocuments := app.documents ++ documents
    status := .under_review
    reviewDate := some now }

/-- `attachDocuments` (storage.ts lines 247-276): read-then-write,
`undefined` sentinel (and no write) for a missing id. -/
def attachDocuments (st : Store) (id : String) (documents : List String)
    (now : Nat) : Option Application × Store :=
  match getApplication st id with
  | none => (none, st)
  | some app =>
    let updated := attachedRecord app documents now
    (some updated, { st with applications := setApplication st.applications id updated })

/-- `getAdminByUsername` (storage.ts lines 292-303). -/
def getAdminByUsername (st : Store) (username : String) : Option Admin :=
  st.admins.find? (fun a => a.username = username)

/-- `createDefaultAdmin` (storage.ts lines 95-111): `SELECT * FROM admins
WHERE username = 'admin'`; insert the default row only when no row came
back. -/
def createDefaultAdmin (st : Store) (newId : String) (now : Nat) : Store :=
  match getAdminByUsername st "admin" with
  | some _ => st
  | none =>
    { st with
      admins := st.admins ++
        [{ id := newId
           username := "admin"
           password := "admin123"
           fullName := "System Administrator"
           createdAt := now }] }

/-- One run of `initializeDatabase` on an already-connected store:
`createTables` uses `CREATE TABLE IF NOT EXISTS`, a no-op on existing data,
followed by `createDefaultAdmin`. -/
def initializeDatabase (st : Store) (newId : String) (now : Nat) : Store :=
  createDefaultAdmin st newId now

/-- `n` consecutive initializations, with fresh uuid / clock draws. -/
def initializeN : Nat → Store → (Nat → String) → (Nat → Nat) → Store
  | 0, st, _, _ => st
  | n + 1, st, ids, times =>
    initializeN n (initializeDatabase st (ids n) (times n)) ids times

/-- States of the datastore reachable through the application operations,
starting from the freshly created (empty) tables.  A `create` step carries
the `Math.random()` contract `0 ≤ r < 1`; a failed insert leaves the store
unchanged and is therefore covered by the originating state. -/
inductive Reachable : Store → Prop where
  | init : Reachable emptyStore
  | create {st : Store} {input : InsertApplication} {id : String} {r : ℚ}
      {now : Nat} {app : Application} {st' : Store} :
      Reachable st → 0 ≤ r → r < 1 →
      createApplication st input id r now = .ok (app, st') → Reachable st'
  | update {st : Store} {id : String} {status : Status}
      {rb an rs : Option String} {now : Nat} :
      Reachable st →
      Reachable (updateApplicationStatus st id status rb an rs now).2
  | attach {st : Store} {id : String} {docs : List String} {now : Nat} :
      Reachable st → Reachable (attachDocuments st id docs now).2

/-- The spec's reference-number pattern `RCC-2025-\d{6}`: the literal
prefix followed by exactly six decimal digits. -/
def matchesRefPattern (s : String) : Prop :=
  s.data.take 9 = "RCC-2025-".data ∧
  (s.data.drop 9).length = 6 ∧
  ∀ c ∈ s.data.drop 9, c.isDigit = true

/-- Number of admin rows with `username = "admin"`. -/
def countAdminRows (st : Store) : Nat :=
  (st.admins.filter fun a => a.username = "admin").length

/-- A concrete insert payload (the spec's Jane Doe scenario). -/
def exInput : InsertApplication :=
  { fullName := "Jane Doe", idNumber := "I1", phoneNumber := "P1", email := none
    propertyAddress := "A1", standNumber := "S1", propertyType := "T1", reason := "sale"
    documents := none, uploadedDocuments := none }

/-- The record `createApplication emptyStore exInput "id1" 0 0` builds. -/
def exApp1 : Application :=
  { id := "id1", referenceNumber := "RCC-2025-100000", fullName := "Jane Doe"
    idNumber := "I1", phoneNumber := "P1", email := none, propertyAddress := "A1"
    standNumber := "S1", propertyType := "T1", reason := "sale"
    documents := [], uploadedDocuments := [], status := .submitted
    submittedDate := 0, reviewDate := none, completedDate := none
    adminNotes := none, reviewedBy := none }

def exStore1 : Store := { applications := [exApp1], admins := [] }

/-- An insert payload whose `documents` and `uploadedDocuments` differ. -/
def exInput2 : InsertApplication :=
  { fullName := "Jane Doe", idNumber := "I1", phoneNumber := "P1", email := none
    propertyAddress := "A1", standNumber := "S1", propertyType := "T1", reason := "sale"
    documents := some ["a"], uploadedDocuments := some ["b"] }

/-- The record `createApplication emptyStore exInput2 "id1" 0 0` builds. -/
def exApp2 : Application :=
  { id := "id1", referenceNumber := "RCC-2025-100000", fullName := "Jane Doe"
    idNumber := "I1", phoneNumber := "P1", email := none, propertyAddress := "A1"
    standNumber := "S1", propertyType := "T1", reason := "sale"
    documents := ["a"], uploadedDocuments := ["b"], status := .submitted
    submittedDate := 0, reviewDate := none, completedDate := none
    adminNotes := none, reviewedBy := none }

def exStore2 : Store := { applications := [exApp2], admins := [] }

/-- Approve the single application of `exStore1` at time 1. -/
def c3Store : Store :=
  (updateApplicationStatus exStore1 "id1" .approved none none none 1).2

/-- Approve at time 1, then move back to `under_review` at time 2. -/
def c1Store : Store :=
  (updateApplicationStatus c3Store "id1" .under_review none none none 2).2

/-- A store already holding the seeded default admin row. -/
def exAdminStore : Store :=
  { applications := []
    admins := [{ id := "aid", username := "admin", password := "admin123"
                 fullName := "System Administrator", createdAt := 0 }] }

@[simp] theorem newApplication_id (input : InsertApplication) (id : String)
    (r : ℚ) (now : Nat) : (newApplication input id r now).id = id := rfl

@[simp] theorem newApplication_ref (input : InsertApplication) (id : String)
    (r : ℚ) (now : Nat) :
    (newApplication input id r now).referenceNumber = referenceNumber r := rfl

@[simp] theorem updatedRecord_id (app : Application) (status : Status)
    (rb an rs : Option String) (now : Nat) :
    (updatedRecord app status rb an rs now).id = app.id := rfl

@[simp] theorem updatedRecord_ref (app : Application) (status : Status)
    (rb an rs : Option String) (now : Nat) :
    (updatedRecord app status rb an rs now).referenceNumber =
      app.referenceNumber := rfl

@[simp] theorem attachedRecord_id (app : Application) (docs : List String)
    (now : Nat) : (attachedRecord app docs now).id = app.id := rfl

@[simp] theorem attachedRecord_ref (app : Application) (docs : List String)
    (now : Nat) :
    (attachedRecord app docs now).referenceNumber = app.referenceNumber := rfl

/-- Anatomy of a successful insert: the new record is the generated one,
it is appended at the end, and no existing row shares its `id` or its
`reference_number`. -/
theorem createApplication_ok {st : Store} {input : InsertApplication}
    {id : String} {r : ℚ} {now : Nat} {app : Application} {st' : Store}
    (h : createApplication st input id r now = .ok (app, st')) :
    app = newApplication input id r now ∧
    st' = { st with applications := st.applications ++ [app] } ∧
    (∀ a ∈ st.applications, a.id ≠ id) ∧
    (∀ a ∈ st.applications, a.referenceNumber ≠ referenceNumber r) := by
  rw [createApplication] at h
  split at h
  · exact absurd h (by simp)
  · split at h
    · exact absurd h (by simp)
    · rename_i h1 h2
      rw [Except.ok.injEq, Prod.mk.injEq] at h
      obtain ⟨rfl, rfl⟩ := h
      simp only [List.any_eq_true, newApplication_id, newApplication_ref,
        decide_eq_true_eq, not_exists, not_and] at h1 h2
      exact ⟨rfl, rfl, h1, h2⟩

theorem updateApplicationStatus_found {st : Store} {id : String}
    {app : Application} (status : Status) (rb an rs : Option String)
    (now : Nat) (h : getApplication st id = some app) :
    updateApplicationStatus st id status rb an rs now =
      (some (updatedRecord app status rb an rs now),
       { st with applications :=
          setApplication st.applications id (updatedRecord app status rb an rs now) }) := by
  rw [updateApplicationStatus, h]

theorem attachDocuments_found {st : Store} {id : String} {app : Application}
    (docs : List String) (now : Nat) (h : getApplication st id = some app) :
    attachDocuments st id docs now =
      (some (attachedRecord app docs now),
       { st with applications :=
          setApplication st.applications id (attachedRecord app docs now) }) := by
  rw [attachDocuments, h]

theorem setApplication_cons (a : Application) (t : List Application)
    (id : String) (u : Application) :
    setApplication (a :: t) id u =
      (if a.id = id then u else a) :: setApplication t id u := rfl

/-- Rewriting a row that is not present changes nothing. -/
theorem setApplication_eq_self {l : List Application} {id : String}
    {u : Application} (h : ∀ a ∈ l, a.id ≠ id) : setApplication l id u = l := by
  induction l with
  | nil => rfl
  | cons a t ih =>
    rw [setApplication_cons, if_neg (h a (List.mem_cons_self a t)),
      ih (fun b hb => h b (List.mem_cons_of_mem a hb))]

/-- After an UPDATE on the row the point lookup found, the lookup returns
the rewritten row. -/
theorem find?_setApplication {l : List Application} {id : String}
    {u app : Application} (hfind : l.find? (fun a => a.id = id) = some app)
    (hid : u.id = app.id) :
    (setApplication l id u).find? (fun a => a.id = id) = some u := by
  induction l with
  | nil => simp at hfind
  | cons a t ih =>
    by_cases ha : a.id = id
    · rw [List.find?_cons_of_pos _ (by simpa using ha)] at hfind
      rw [Option.some.injEq] at hfind
      subst hfind
      rw [setApplication_cons, if_pos ha]
      exact List.find?_cons_of_pos _ (by simp [hid, ha])
    · rw [List.find?_cons_of_neg _ (by simpa using ha)] at hfind
      rw [setApplication_cons, if_neg ha]
      rw [List.find?_cons_of_neg _ (by simpa using ha)]
      exact ih hfind

theorem getApplication_setApplication {st : Store} {id : String}
    {app : Application} (u : Application)
    (h : getApplication st id = some app) (hid : u.id = app.id) :
    getApplication
      { st with applications := setApplication st.applications id u } id =
      some u :=
  find?_setApplication h hid

/-- Membership in the rewritten table. -/
theorem mem_setApplication {l : List Application} {id : String}
    {u a' : Application} (h : a' ∈ setApplication l id u) :
    a' = u ∨ a' ∈ l := by
  rw [setApplication, List.mem_map] at h
  obtain ⟨a, ha, hfa⟩ := h
  by_cases hid : a.id = id
  · rw [if_pos hid] at hfa; exact Or.inl hfa.symm
  · rw [if_neg hid] at hfa; exact Or.inr (hfa ▸ ha)

/-- An UPDATE that keeps a projection of the rewritten row unchanged keeps
that projection of the whole table unchanged, provided row ids are
pairwise distinct. -/
theorem setApplication_map_proj {α : Type} (proj : Application → α)
    {l : List Application} {id : String} {u app : Application}
    (hpw : l.Pairwise fun a b => a.id ≠ b.id)
    (hfind : l.find? (fun a => a.id = id) = some app)
    (hproj : proj u = proj app) :
    (setApplication l id u).map proj = l.map proj := by
  induction l with
  | nil => rfl
  | cons a t ih =>
    rw [List.pairwise_cons] at hpw
    rw [setApplication_cons]
    by_cases ha : a.id = id
    · rw [List.find?_cons_of_pos _ (by simpa using ha)] at hfind
      rw [Option.some.injEq] at hfind
      subst hfind
      rw [if_pos ha, List.map_cons, List.map_cons, hproj,
        setApplication_eq_self (fun b hb hbid => hpw.1 b hb (ha.trans hbid.symm))]
    · rw [List.find?_cons_of_neg _ (by simpa using ha)] at hfind
      rw [if_neg ha, List.map_cons, List.map_cons, ih hpw.2 hfind]

/-- `Nat.toDigitsCore` produces exactly the base-10 digits, most
significant first, in front of the accumulator. -/
theorem toDigitsCore_eq_digits (fuel : Nat) :
    ∀ (n : Nat) (l : List Char), 0 < n → n < fuel →
      Nat.toDigitsCore 10 fuel n l =
        ((Nat.digits 10 n).map Nat.digitChar).reverse ++ l := by
  induction fuel with
  | zero => intro n l hn hf; omega
  | succ fuel ih =>
    intro n l hn hf
    rw [Nat.toDigitsCore]
    have hdig : Nat.digits 10 n = n % 10 :: Nat.digits 10 (n / 10) :=
      Nat.digits_def' (by norm_num) hn
    by_cases h10 : n / 10 = 0
    · simp [h10, hdig]
    · have hlt : n / 10 < n := Nat.div_lt_self hn (by norm_num)
      rw [if_neg h10, ih (n / 10) _ (Nat.pos_of_ne_zero h10) (by omega), hdig]
      simp

/-- `Nat.repr` of a positive number spells its decimal digits. -/
theorem repr_data_eq (n : Nat) (hn : 0 < n) :
    (Nat.repr n).data = ((Nat.digits 10 n).map Nat.digitChar).reverse := by
  show (Nat.toDigits 10 n).asString.data = _
  rw [Nat.toDigits, toDigitsCore_eq_digits (n + 1) n [] hn (Nat.lt_succ_self n)]
  simp [List.asString]

/-- A number between 100000 and 999999 prints with exactly six characters. -/
theorem repr_length_six (k : Nat) (h1 : 100000 ≤ k) (h2 : k ≤ 999999) :
    (Nat.repr k).data.length = 6 := by
  rw [repr_data_eq k (by omega)]
  rw [List.length_reverse, List.length_map]
  rw [Nat.digits_len 10 k (by norm_num) (by omega)]
  have hlog : Nat.log 10 k = 5 :=
    Nat.log_eq_of_pow_le_of_lt_pow (by norm_num; omega) (by norm_num; omega)
  omega

/-- Every character printed by `Nat.repr` is a decimal digit. -/
theorem repr_all_digit (k : Nat) (hk : 0 < k) :
    ∀ c ∈ (Nat.repr k).data, c.isDigit = true := by
  rw [repr_data_eq k hk]
  intro c hc
  rw [List.mem_reverse, List.mem_map] at hc
  obtain ⟨d, hd, rfl⟩ := hc
  have hdlt : d < 10 := Nat.digits_lt_base (by norm_num) hd
  interval_cases d <;> decide

/-- Under the `Math.random()` contract the generated suffix is a six-digit
number. -/
theorem refSuffix_bounds (r : ℚ) (h0 : 0 ≤ r) (h1 : r < 1) :
    100000 ≤ refSuffix r ∧ refSuffix r ≤ 999999 := by
  constructor
  · apply Int.le_floor.mpr
    push_cast
    nlinarith
  · have hlt : refSuffix r < 1000000 := by
      apply Int.floor_lt.mpr
      push_cast
      nlinarith
    omega

/-- Under the `Math.random()` contract the generated reference number
matches `RCC-2025-\d{6}`. -/
theorem referenceNumber_matches (r : ℚ) (h0 : 0 ≤ r) (h1 : r < 1) :
    matchesRefPattern (referenceNumber r) := by
  obtain ⟨hlo, hhi⟩ := refSuffix_bounds r h0 h1
  have hk1 : 100000 ≤ (refSuffix r).toNat := by omega
  have hk2 : (refSuffix r).toNat ≤ 999999 := by omega
  have hdata : (referenceNumber r).data =
      "RCC-2025-".data ++ (Nat.repr (refSuffix r).toNat).data := by
    rw [referenceNumber, String.data_append]
  have hpre : ("RCC-2025-".data).length = 9 := by decide
  refine ⟨?_, ?_, ?_⟩
  · rw [hdata, List.take_left' hpre]
  · rw [hdata, List.drop_left' hpre]
    exact repr_length_six _ hk1 hk2
  · rw [hdata, List.drop_left' hpre]
    exact repr_all_digit _ (by omega)

/-- The draw `r = 0` yields the smallest reference number. -/
theorem refNum_zero : referenceNumber 0 = "RCC-2025-100000" := by
  have h : refSuffix 0 = 100000 := by norm_num [refSuffix]
  show "RCC-2025-" ++ Nat.repr (refSuffix 0).toNat = "RCC-2025-100000"
  rw [h]
  rfl

theorem createApp_ex :
    createApplication emptyStore exInput "id1" 0 0 = .ok (exApp1, exStore1) := by
  simp only [createApplication, newApplication, refNum_zero]
  rfl

theorem createApp_ex2 :
    createApplication emptyStore exInput2 "id1" 0 0 = .ok (exApp2, exStore2) := by
  simp only [createApplication, newApplication, refNum_zero]
  rfl

theorem mem_of_getApplication {st : Store} {id : String} {app : Application}
    (h : getApplication st id = some app) : app ∈ st.applications :=
  List.mem_of_find?_eq_some h

/-- C2 counterexample: a stored application whose `uploadedDocuments`
(`["b"]`) differ from its `documents` (`["a"]`) is reachable by a single
`createApplication`; attaching `["c"]` then yields
`uploadedDocuments = ["a","c"]`, not `["b"] ++ ["c"]` — the documents are
not appended to the prior `uploadedDocuments` sequence. -/
theorem c2_counterexample :
    Reachable exStore2 ∧
    (getApplication exStore2 "id1").map (fun a => a.uploadedDocuments) =
      some ["b"] ∧
    ((attachDocuments exStore2 "id1" ["c"] 5).1).map
      (fun a => a.uploadedDocuments) = some ["a", "c"] ∧
    ((attachDocuments exStore2 "id1" ["c"] 5).1).map
      (fun a => a.uploadedDocuments) ≠ some (["b"] ++ ["c"]) := by
  refine ⟨Reachable.create Reachable.init le_rfl (by norm_num) createApp_ex2,
    ?_, ?_, ?_⟩ <;> decide

/-- C2 (amended): for an existing application, `attachDocuments` appends
`docs` to `documents`, sets `uploadedDocuments` to that same appended
`documents` sequence (not to the prior `uploadedDocuments`), forces status
`under_review`, sets `reviewDate := now` unconditionally, and persists what
it returns; a second call appends again, so `["doc1"]` then `["doc2"]`
starting from empty documents yields `["doc1","doc2"]`. -/
theorem c2_attachDocuments_amended (st : Store) (id : String)
    (app : Application) (docs docs2 : List String) (now now2 : Nat)
    (h : getApplication st id = some app) :
    ∃ u, (attachDocuments st id docs now).1 = some u ∧
      getApplication (attachDocuments st id docs now).2 id = some u ∧
      u.documents = app.documents ++ docs ∧
      u.uploadedDocuments = app.documents ++ docs ∧
      u.status = .under_review ∧
      u.reviewDate = some now ∧
      ∃ u2, (attachDocuments (attachDocuments st id docs now).2 id docs2 now2).1 =
          some u2 ∧
        u2.documents = (app.documents ++ docs) ++ docs2 ∧
        u2.status = .under_review := by
  have h2 : getApplication (attachDocuments st id docs now).2 id =
      some (attachedRecord app docs now) := by
    simp only [attachDocuments_found docs now h]
    exact getApplication_setApplication _ h rfl
  refine ⟨attachedRecord app docs now, ?_, h2, rfl, rfl, rfl, rfl,
    attachedRecord (attachedRecord app docs now) docs2 now2, ?_, rfl, rfl⟩
  · simp only [attachDocuments_found docs now h]
  · simp only [attachDocuments_found docs2 now2 h2]

theorem c2_witness :
    ∃ u, (attachDocuments exStore1 "id1" ["doc1"] 1).1 = some u ∧
      getApplication (attachDocuments exStore1 "id1" ["doc1"] 1).2 "id1" =
        some u ∧
      u.documents = exApp1.documents ++ ["doc1"] ∧
      u.uploadedDocuments = exApp1.documents ++ ["doc1"] ∧
      u.status = .under_review ∧
      u.reviewDate = some 1 ∧
      ∃ u2, (attachDocuments (attachDocuments exStore1 "id1" ["doc1"] 1).2
          "id1" ["doc2"] 2).1 = some u2 ∧
        u2.documents = (exApp1.documents ++ ["doc1"]) ++ ["doc2"] ∧
        u2.status = .under_review :=
  c2_attachDocuments_amended exStore1 "id1" exApp1 ["doc1"] ["doc2"] 1 2 rfl

/-- C3 counterexample: approving the application of `exStore1` at time 1
sets `completedDate = some 1`; a second `approved` update at time 2
returns `completedDate = some 2`, so a later call does change an
already-set `completedDate`. -/
theorem c3_counterexample :
    Reachable c3Store ∧
    ((updateApplicationStatus exStore1 "id1" .approved none none none 1).1).map
      (fun a => a.completedDate) = some (some 1) ∧
    ((updateApplicationStatus c3Store "id1" .approved none none none 2).1).map
      (fun a => a.completedDate) = some (some 2) ∧
    ((updateApplicationStatus c3Store "id1" .approved none none none 2).1).map
      (fun a => a.completedDate) ≠
    ((updateApplicationStatus exStore1 "id1" .approved none none none 1).1).map
      (fun a => a.completedDate) := by
  refine ⟨Reachable.update
    (Reachable.create Reachable.init le_rfl (by norm_num) createApp_ex),
    ?_, ?_, ?_⟩ <;> decide

/-- C3 (amended): `completedDate` is null at creation and preserved by
non-terminal updates, but every `updateApplicationStatus` call with status
`approved` or `rejected` sets `completedDate` to the call's current time,
overwriting any previously set value. -/
theorem c3_completedDate_amended (st : Store) (id : String)
    (app : Application) (status : Status) (rb an rs : Option String)
    (now : Nat) (h : getApplication st id = some app) :
    ∃ u, (updateApplicationStatus st id status rb an rs now).1 = some u ∧
      getApplication (updateApplicationStatus st id status rb an rs now).2 id =
        some u ∧
      ((status = .approved ∨ status = .rejected) → u.completedDate = some now) ∧
      (¬(status = .approved ∨ status = .rejected) →
        u.completedDate = app.completedDate) := by
  refine ⟨updatedRecord app status rb an rs now, ?_, ?_, ?_, ?_⟩
  · simp only [updateApplicationStatus_found status rb an rs now h]
  · simp only [updateApplicationStatus_found status rb an rs now h]
    exact getApplication_setApplication _ h rfl
  · intro hterm
    show (if status = .approved ∨ status = .rejected then some now
      else app.completedDate) = some now
    rw [if_pos hterm]
  · intro hterm
    show (if status = .approved ∨ status = .rejected then some now
      else app.completedDate) = app.completedDate
    rw [if_neg hterm]

theorem c3_witness :
    ∃ u, (updateApplicationStatus exStore1 "id1" .approved none none none 7).1 =
        some u ∧
      getApplication
        (updateApplicationStatus exStore1 "id1" .approved none none none 7).2
        "id1" = some u ∧
      ((Status.approved = .approved ∨ Status.approved = .rejected) →
        u.completedDate = some 7) ∧
      (¬(Status.approved = .approved ∨ Status.approved = .rejected) →
        u.completedDate = exApp1.completedDate) :=
  c3_completedDate_amended exStore1 "id1" exApp1 .approved none none none 7 rfl

/-- C5: `reviewDate` is first-write-wins under `updateApplicationStatus`:
the second of two successive calls returns the same `reviewDate` as the
first, and an already-set `reviewDate` is returned unchanged. -/
theorem c5_reviewDate_first_write_wins (st : Store) (id : String)
    (app : Application) (s1 s2 : Status)
    (rb1 an1 rs1 rb2 an2 rs2 : Option String) (t1 t2 : Nat)
    (h : getApplication st id = some app) :
    ∃ u1 u2,
      (updateApplicationStatus st id s1 rb1 an1 rs1 t1).1 = some u1 ∧
      (updateApplicationStatus (updateApplicationStatus st id s1 rb1 an1 rs1 t1).2
        id s2 rb2 an2 rs2 t2).1 = some u2 ∧
      u2.reviewDate = u1.reviewDate ∧
      (∀ d, app.reviewDate = some d → u1.reviewDate = some d) := by
  have h2 : getApplication (updateApplicationStatus st id s1 rb1 an1 rs1 t1).2 id =
      some (updatedRecord app s1 rb1 an1 rs1 t1) := by
    simp only [updateApplicationStatus_found s1 rb1 an1 rs1 t1 h]
    exact getApplication_setApplication _ h rfl
  refine ⟨updatedRecord app s1 rb1 an1 rs1 t1,
    updatedRecord (updatedRecord app s1 rb1 an1 rs1 t1) s2 rb2 an2 rs2 t2,
    ?_, ?_, rfl, ?_⟩
  · simp only [updateApplicationStatus_found s1 rb1 an1 rs1 t1 h]
  · simp only [updateApplicationStatus_found s2 rb2 an2 rs2 t2 h2]
  · intro d hd
    show some (app.reviewDate.getD t1) = some d
    rw [hd]
    rfl

theorem c5_witness :
    ∃ u1 u2,
      (updateApplicationStatus exStore1 "id1" .under_review none none none 3).1 =
        some u1 ∧
      (updateApplicationStatus
        (updateApplicationStatus exStore1 "id1" .under_review none none none 3).2
        "id1" .approved none none none 4).1 = some u2 ∧
      u2.reviewDate = u1.reviewDate ∧
      (∀ d, exApp1.reviewDate = some d → u1.reviewDate = some d) :=
  c5_reviewDate_first_write_wins exStore1 "id1" exApp1 .under_review .approved
    none none none none none none 3 4 rfl

/-- C6: `updateApplicationStatus` overwrites `reviewedBy`, `adminNotes`
and `reason` only when a new value is supplied: with no argument the
stored value is preserved, in the returned record and in the persisted
row alike. -/
theorem c6_update_overwrites_only_supplied (st : Store) (id : String)
    (app : Application) (status : Status) (rb an rs : Option String)
    (now : Nat) (h : getApplication st id = some app) :
    ∃ u, (updateApplicationStatus st id status rb an rs now).1 = some u ∧
      getApplication (updateApplicationStatus st id status rb an rs now).2 id =
        some u ∧
      (rb = none → u.reviewedBy = app.reviewedBy) ∧
      (an = none → u.adminNotes = app.adminNotes) ∧
      (rs = none → u.reason = app.reason) ∧
      (u.reviewedBy ≠ app.reviewedBy → rb ≠ none) ∧
      (u.adminNotes ≠ app.adminNotes → an ≠ none) ∧
      (u.reason ≠ app.reason → rs ≠ none) := by
  refine ⟨updatedRecord app status rb an rs now, ?_, ?_, ?_, ?_, ?_, ?_, ?_, ?_⟩
  · simp only [updateApplicationStatus_found status rb an rs now h]
  · simp only [updateApplicationStatus_found status rb an rs now h]
    exact getApplication_setApplication _ h rfl
  · intro hrb; subst hrb; rfl
  · intro han; subst han; rfl
  · intro hrs; subst hrs; rfl
  · intro hne hrb; subst hrb; exact hne rfl
  · intro hne han; subst han; exact hne rfl
  · intro hne hrs; subst hrs; exact hne rfl

theorem c6_witness :
    ∃ u, (updateApplicationStatus exStore1 "id1" .under_review none none none 3).1 =
        some u ∧
      getApplication
        (updateApplicationStatus exStore1 "id1" .under_review none none none 3).2
        "id1" = some u ∧
      (none = (none : Option String) → u.reviewedBy = exApp1.reviewedBy) ∧
      (none = (none : Option String) → u.adminNotes = exApp1.adminNotes) ∧
      (none = (none : Option String) → u.reason = exApp1.reason) ∧
      (u.reviewedBy ≠ exApp1.reviewedBy → (none : Option String) ≠ none) ∧
      (u.adminNotes ≠ exApp1.adminNotes → (none : Option String) ≠ none) ∧
      (u.reason ≠ exApp1.reason → (none : Option String) ≠ none) :=
  c6_update_overwrites_only_supplied exStore1 "id1" exApp1 .under_review
    none none none 3 rfl

/-- C7: every record returned by a successful `createApplication` starts
with status `submitted`, null review/completion/notes/reviewer fields,
`submittedDate = now`, and document sequences defaulted to `[]` when
absent from the input. -/
theorem c7_createApplication_fresh_fields (st : Store)
    (input : InsertApplication) (id : String) (r : ℚ) (now : Nat)
    (app : Application) (st' : Store)
    (h : createApplication st input id r now = .ok (app, st')) :
    app.status = .submitted ∧ app.reviewDate = none ∧
    app.completedDate = none ∧ app.adminNotes = none ∧
    app.reviewedBy = none ∧ app.submittedDate = now ∧
    (input.documents = none → app.documents = []) ∧
    (input.uploadedDocuments = none → app.uploadedDocuments = []) := by
  obtain ⟨rfl, -, -, -⟩ := createApplication_ok h
  refine ⟨rfl, rfl, rfl, rfl, rfl, rfl, ?_, ?_⟩
  · intro hd
    show input.documents.getD [] = []
    rw [hd]
    rfl
  · intro hd
    show input.uploadedDocuments.getD [] = []
    rw [hd]
    rfl

theorem c7_witness :
    exApp1.status = .submitted ∧ exApp1.reviewDate = none ∧
    exApp1.completedDate = none ∧ exApp1.adminNotes = none ∧
    exApp1.reviewedBy = none ∧ exApp1.submittedDate = 0 ∧
    (exInput.documents = none → exApp1.documents = []) ∧
    (exInput.uploadedDocuments = none → exApp1.uploadedDocuments = []) :=
  c7_createApplication_fresh_fields emptyStore exInput "id1" 0 0 exApp1
    exStore1 createApp_ex

/-- C8: on an id absent from the store, `getApplication` returns the
`undefined` sentinel and `updateApplicationStatus` / `attachDocuments`
return the sentinel with the store unchanged; the model is total, so no
exception path exists. -/
theorem c8_missing_id_returns_sentinel (st : Store) (id : String)
    (status : Status) (rb an rs : Option String) (docs : List String)
    (t1 t2 : Nat) (h : ∀ a ∈ st.applications, a.id ≠ id) :
    getApplication st id = none ∧
    updateApplicationStatus st id status rb an rs t1 = (none, st) ∧
    attachDocuments st id docs t2 = (none, st) := by
  have hg : getApplication st id = none := by
    rw [getApplication, List.find?_eq_none]
    intro a ha
    simpa using h a ha
  refine ⟨hg, ?_, ?_⟩
  · rw [updateApplicationStatus, hg]
  · rw [attachDocuments, hg]

theorem c8_witness :
    getApplication exStore1 "missing" = none ∧
    updateApplicationStatus exStore1 "missing" .approved none none none 1 =
      (none, exStore1) ∧
    attachDocuments exStore1 "missing" ["d"] 2 = (none, exStore1) :=
  c8_missing_id_returns_sentinel exStore1 "missing" .approved none none none
    ["d"] 1 2 (by decide)

/-- C10: after `attachDocuments`, `uploadedDocuments` equals `documents`:
both are the prior `documents` with `docs` appended, so prior
`uploadedDocuments` content that differed from `documents` is discarded. -/
theorem c10_attach_sets_uploaded_to_documents (st : Store) (id : String)
    (app : Application) (docs : List String) (now : Nat)
    (h : getApplication st id = some app) :
    ∃ u, (attachDocuments st id docs now).1 = some u ∧
      getApplication (attachDocuments st id docs now).2 id = some u ∧
      u.uploadedDocuments = u.documents ∧
      u.uploadedDocuments = app.documents ++ docs := by
  refine ⟨attachedRecord app docs now, ?_, ?_, rfl, rfl⟩
  · simp only [attachDocuments_found docs now h]
  · simp only [attachDocuments_found docs now h]
    exact getApplication_setApplication _ h rfl

theorem c10_witness :
    ∃ u, (attachDocuments exStore2 "id1" ["c"] 5).1 = some u ∧
      getApplication (attachDocuments exStore2 "id1" ["c"] 5).2 "id1" = some u ∧
      u.uploadedDocuments = u.documents ∧
      u.uploadedDocuments = exApp2.documents ++ ["c"] :=
  c10_attach_sets_uploaded_to_documents exStore2 "id1" exApp2 ["c"] 5 rfl

/-- Seeding is a no-op once an `admin` row exists. -/
theorem createDefaultAdmin_of_present (st : Store) (i : String) (t : Nat)
    (h : ∃ a ∈ st.admins, a.username = "admin") :
    createDefaultAdmin st i t = st := by
  obtain ⟨a, ha, hu⟩ := h
  cases hfind : getAdminByUsername st "admin" with
  | some b => simp only [createDefaultAdmin, hfind]
  | none =>
    rw [getAdminByUsername, List.find?_eq_none] at hfind
    exact absurd hu (by simpa using hfind a ha)

/-- Seeding an admin-free store leaves exactly one `admin` row. -/
theorem countAdminRows_seed_of_absent (st : Store) (i : String) (t : Nat)
    (h : ∀ a ∈ st.admins, a.username ≠ "admin") :
    countAdminRows (createDefaultAdmin st i t) = 1 := by
  have hfind : getAdminByUsername st "admin" = none := by
    rw [getAdminByUsername, List.find?_eq_none]
    intro a ha
    simpa using h a ha
  simp only [createDefaultAdmin, hfind]
  rw [countAdminRows, List.filter_append,
    List.filter_eq_nil_iff.mpr (fun a ha => by simpa using h a ha)]
  rfl

/-- A store with exactly one `admin` row keeps it across any number of
further initializations. -/
theorem initializeN_count_one (n : Nat) (ids : Nat → String)
    (times : Nat → Nat) : ∀ st : Store, countAdminRows st = 1 →
      countAdminRows (initializeN n st ids times) = 1 := by
  induction n with
  | zero => intro st h; exact h
  | succ n ih =>
    intro st h
    rw [initializeN]
    apply ih
    rw [initializeDatabase, createDefaultAdmin_of_present]
    · exact h
    · rw [countAdminRows] at h
      have hne : st.admins.filter (fun a => a.username = "admin") ≠ [] := by
        intro hnil
        rw [hnil] at h
        simp at h
      obtain ⟨a, ha⟩ := List.exists_mem_of_ne_nil _ hne
      exact ⟨a, (List.mem_filter.mp ha).1, by simpa using (List.mem_filter.mp ha).2⟩

/-- C9: default-admin seeding is idempotent: any positive number of
consecutive initializations of the fresh store leaves exactly one admin
row with username `admin`, and an initialization of a state already
holding such a row inserts nothing. -/
theorem c9_default_admin_idempotent (n : Nat) (ids : Nat → String)
    (times : Nat → Nat) (stp : Store) (i : String) (t : Nat) (hn : 1 ≤ n)
    (hp : ∃ a ∈ stp.admins, a.username = "admin") :
    countAdminRows (initializeN n emptyStore ids times) = 1 ∧
    initializeDatabase stp i t = stp := by
  constructor
  · obtain ⟨m, rfl⟩ : ∃ m, n = m + 1 := ⟨n - 1, by omega⟩
    rw [initializeN]
    apply initializeN_count_one
    apply countAdminRows_seed_of_absent
    intro a ha
    simp [emptyStore] at ha
  · exact createDefaultAdmin_of_present stp i t hp

theorem c9_witness :
    countAdminRows (initializeN 2 emptyStore (fun _ => "aid") (fun _ => 0)) = 1 ∧
    initializeDatabase exAdminStore "x" 5 = exAdminStore :=
  c9_default_admin_idempotent 2 (fun _ => "aid") (fun _ => 0) exAdminStore
    "x" 5 (by decide) (by decide)

/-- C1 counterexample: the state reached by create, approve (time 1), then
update to `under_review` (time 2) is a reachable store holding a record
with `completedDate = some 1` but status `under_review`, violating the
claimed "non-null iff approved/rejected" invariant. -/
theorem c1_counterexample :
    Reachable c1Store ∧
    ∃ a ∈ c1Store.applications,
      a.completedDate ≠ none ∧
      ¬(a.status = .approved ∨ a.status = .rejected) := by
  constructor
  · exact Reachable.update (Reachable.update
      (Reachable.create Reachable.init le_rfl (by norm_num) createApp_ex))
  · decide

/-- C1 (amended): in every reachable store state, each record with status
`approved` or `rejected` has a non-null `completedDate`; the converse
direction fails (see the counterexample), because non-terminal updates and
`attachDocuments` preserve a previously set `completedDate`. -/
theorem c1_completed_nonnull_of_terminal (st : Store) (h : Reachable st) :
    ∀ a ∈ st.applications,
      (a.status = .approved ∨ a.status = .rejected) →
        a.completedDate ≠ none := by
  induction h with
  | init => intro a ha; simp [emptyStore] at ha
  | @create st0 input0 id0 r0 now0 app0 st0' hr h0 h1 heq ih =>
    obtain ⟨rfl, rfl, -, -⟩ := createApplication_ok heq
    intro a ha hterm
    rcases List.mem_append.mp ha with hmem | hmem
    · exact ih a hmem hterm
    · rw [List.mem_singleton] at hmem
      subst hmem
      rcases hterm with ht | ht <;> simp [newApplication] at ht
  | @update st0 id0 status0 rb0 an0 rs0 now0 hr ih =>
    cases hf : getApplication st0 id0 with
    | none => simp only [updateApplicationStatus, hf]; exact ih
    | some app =>
      simp only [updateApplicationStatus_found status0 rb0 an0 rs0 now0 hf]
      intro a ha hterm
      rcases mem_setApplication ha with rfl | hmem
      · have hst : (updatedRecord app status0 rb0 an0 rs0 now0).status =
            status0 := rfl
        rw [hst] at hterm
        show (if status0 = .approved ∨ status0 = .rejected then some now0
          else app.completedDate) ≠ none
        rw [if_pos hterm]
        simp
      · exact ih a hmem hterm
  | @attach st0 id0 docs0 now0 hr ih =>
    cases hf : getApplication st0 id0 with
    | none => simp only [attachDocuments, hf]; exact ih
    | some app =>
      simp only [attachDocuments_found docs0 now0 hf]
      intro a ha hterm
      rcases mem_setApplication ha with rfl | hmem
      · rcases hterm with ht | ht <;> simp [attachedRecord] at ht
      · exact ih a hmem hterm

theorem c1_witness :
    Reachable c3Store ∧
    ∀ a ∈ c3Store.applications,
      (a.status = .approved ∨ a.status = .rejected) →
        a.completedDate ≠ none :=
  ⟨Reachable.update
      (Reachable.create Reachable.init le_rfl (by norm_num) createApp_ex),
    c1_completed_nonnull_of_terminal c3Store
      (Reachable.update
        (Reachable.create Reachable.init le_rfl (by norm_num) createApp_ex))⟩

/-- C4: in every reachable store state, every record's reference number
matches `RCC-2025-\d{6}`, and reference numbers are pairwise distinct
across the store (the UNIQUE column constraint rejects a colliding
insert). -/
theorem c4_referenceNumber_pattern_and_unique (st : Store)
    (h : Reachable st) :
    (∀ a ∈ st.applications, matchesRefPattern a.referenceNumber) ∧
    st.applications.Pairwise
      (fun a b => a.referenceNumber ≠ b.referenceNumber) := by
  have main : (st.applications.Pairwise fun a b => a.id ≠ b.id) ∧
      (st.applications.Pairwise
        fun a b => a.referenceNumber ≠ b.referenceNumber) ∧
      ∀ a ∈ st.applications, matchesRefPattern a.referenceNumber := by
    induction h with
    | init => refine ⟨?_, ?_, ?_⟩ <;> simp [emptyStore]
    | @create st0 input0 id0 r0 now0 app0 st0' hr h0 h1 heq ih =>
      obtain ⟨rfl, rfl, hid, href⟩ := createApplication_ok heq
      refine ⟨?_, ?_, ?_⟩
      · rw [List.pairwise_append]
        refine ⟨ih.1, by simp, ?_⟩
        intro a ha b hb
        rw [List.mem_singleton] at hb
        subst hb
        rw [newApplication_id]
        exact hid a ha
      · rw [List.pairwise_append]
        refine ⟨ih.2.1, by simp, ?_⟩
        intro a ha b hb
        rw [List.mem_singleton] at hb
        subst hb
        rw [newApplication_ref]
        exact href a ha
      · intro a ha
        rcases List.mem_append.mp ha with hmem | hmem
        · exact ih.2.2 a hmem
        · rw [List.mem_singleton] at hmem
          subst hmem
          rw [newApplication_ref]
          exact referenceNumber_matches r0 h0 h1
    | @update st0 id0 status0 rb0 an0 rs0 now0 hr ih =>
      cases hf : getApplication st0 id0 with
      | none => simp only [updateApplicationStatus, hf]; exact ih
      | some app =>
        simp only [updateApplicationStatus_found status0 rb0 an0 rs0 now0 hf]
        have hids := setApplication_map_proj (fun a => a.id) ih.1 hf
          (updatedRecord_id app status0 rb0 an0 rs0 now0)
        have hrefs := setApplication_map_proj (fun a => a.referenceNumber)
          ih.1 hf (updatedRecord_ref app status0 rb0 an0 rs0 now0)
        refine ⟨?_, ?_, ?_⟩
        · exact List.pairwise_map.mp (by rw [hids]; exact List.pairwise_map.mpr ih.1)
        · exact List.pairwise_map.mp
            (by rw [hrefs]; exact List.pairwise_map.mpr ih.2.1)
        · intro a ha
          rcases mem_setApplication ha with rfl | hmem
          · show matchesRefPattern
              (updatedRecord app status0 rb0 an0 rs0 now0).referenceNumber
            rw [updatedRecord_ref]
            exact ih.2.2 app (mem_of_getApplication hf)
          · exact ih.2.2 a hmem
    | @attach st0 id0 docs0 now0 hr ih =>
      cases hf : getApplication st0 id0 with
      | none => simp only [attachDocuments, hf]; exact ih
      | some app =>
        simp only [attachDocuments_found docs0 now0 hf]
        have hids := setApplication_map_proj (fun a => a.id) ih.1 hf
          (attachedRecord_id app docs0 now0)
        have hrefs := setApplication_map_proj (fun a => a.referenceNumber)
          ih.1 hf (attachedRecord_ref app docs0 now0)
        refine ⟨?_, ?_, ?_⟩
        · exact List.pairwise_map.mp (by rw [hids]; exact List.pairwise_map.mpr ih.1)
        · exact List.pairwise_map.mp
            (by rw [hrefs]; exact List.pairwise_map.mpr ih.2.1)
        · intro a ha
          rcases mem_setApplication ha with rfl | hmem
          · show matchesRefPattern (attachedRecord app docs0 now0).referenceNumber
            rw [attachedRecord_ref]
            exact ih.2.2 app (mem_of_getApplication hf)
          · exact ih.2.2 a hmem
  exact ⟨main.2.2, main.2.1⟩

theorem c4_witness :
    (∀ a ∈ exStore1.applications, matchesRefPattern a.referenceNumber) ∧
    exStore1.applications.Pairwise
      (fun a b => a.referenceNumber ≠ b.referenceNumber) :=
  c4_referenceNumber_pattern_and_unique exStore1
    (Reachable.create Reachable.init le_rfl (by norm_num) createApp_ex)
